/-
Verification of the `flipper-pkg bundle` command
(src/desktop/pkg/src/commands/bundle.ts).

Paths are embedded as lists of segments: the list obtained by splitting a
POSIX path string at every '/' character.  This mapping is a bijection
between strings and segment lists whose segments contain no '/', so every
string-level operation of the source (Node's path module, the trailing
separator test `output.slice(-1) === '/'`) has a faithful segment-level
counterpart:
  - the empty string is [""], the root "/" is ["", ""],
  - a string is absolute (starts with '/') iff its first segment is ""
    and it has at least two segments,
  - a string ends with '/' iff its last segment is "" and it has at least
    two segments,
  - string concatenation with a '/' in between is list append.

The command's environment (filesystem answers, the interactive prompt,
the external yarn/install, build and pack tools, the unawaited mkdirp
call) is an oracle structure `Env`; `run` returns the trace of performed
side effects together with the outcome, mirroring the source line by line.
-/
import Mathlib

set_option maxHeartbeats 1000000

/-- Splits a list of characters at '/' into path segments. -/
def splitAux : List Char → List Char → List String
  | [], acc => [String.mk acc.reverse]
  | c :: cs, acc =>
    if c = '/' then String.mk acc.reverse :: splitAux cs []
    else splitAux cs (c :: acc)

/-- The segment list of a path string: split at every '/'. -/
def segsOfString (s : String) : List String :=
  splitAux s.toList []

/-- Whether the path string of a segment list starts with '/'
(Node `path.isAbsolute`). -/
def isAbsSegs (p : List String) : Bool :=
  decide (p.head? = some ("")) && decide (2 ≤ p.length)

/-- Whether the path string of a segment list ends with '/'
(the source's `parsedFlags.output.slice(-1) === '/'` test). -/
def endsWithSep (p : List String) : Bool :=
  decide (p.getLast? = some ("")) && decide (2 ≤ p.length)

/-- One step of Node's `normalizeString`: consume one segment, maintaining
the stack of output segments (topmost first).  `allowAbove` tells whether
a ".." may climb above the start (true for relative paths). -/
def normStep (allowAbove : Bool) (acc : List String) (seg : String) : List String :=
  if seg = "" ∨ seg = "." then acc
  else if seg = ".." then
    match acc with
    | [] => if allowAbove then [".."] else []
    | a :: acc' => if a = ".." then ".." :: a :: acc' else acc'
  else seg :: acc

/-- Node's `normalizeString` over a whole segment list, as a left fold. -/
def normFold (allowAbove : Bool) (acc : List String) (p : List String) : List String :=
  p.foldl (normStep allowAbove) acc

/-- Node `path.posix.normalize` on segment lists: resolve "." and ".."
segments and repeated separators, keep the absolute prefix and a trailing
separator, return "." for an empty relative result. -/
def normalizeSegs (p : List String) : List String :=
  if p = [] ∨ p = [("")] then ["."]
  else
    let core := (normFold (!(isAbsSegs p)) [] p).reverse
    if core = [] then
      if isAbsSegs p then [(""), ("")]
      else if p.getLast? = some ("") then [("."), ("")]
      else ["."]
    else
      (if isAbsSegs p then [("")] else []) ++ core ++
        (if p.getLast? = some ("") then [("")] else [])

/-- Node `path.posix.join` of two paths: drop empty arguments, concatenate
with a separator, normalize; "." when both arguments are empty. -/
def pathJoin (a b : List String) : List String :=
  if (a = [] ∨ a = [("")]) ∧ (b = [] ∨ b = [("")]) then ["."]
  else if a = [] ∨ a = [("")] then normalizeSegs b
  else if b = [] ∨ b = [("")] then normalizeSegs a
  else normalizeSegs (a ++ b)

/-- Renders the stack produced by `normFold` as an absolute path. -/
def renderAbs (core : List String) : List String :=
  if core = [] then [(""), ("")] else ("") :: core

/-- Node `path.posix.resolve(p)` against a current working directory:
prepend `cwd` unless `p` is absolute, then normalize; always absolute,
never a trailing separator. -/
def pathResolve (cwd p : List String) : List String :=
  renderAbs ((normFold false [] (if isAbsSegs p then p else cwd ++ p)).reverse)

/-- Node `path.posix.resolve(a, b)` against a current working directory:
the rightmost absolute argument wins, `cwd` is used only when neither
argument is absolute. -/
def pathResolve2 (cwd a b : List String) : List String :=
  renderAbs ((normFold false []
    (if isAbsSegs b then b else if isAbsSegs a then a ++ b else cwd ++ a ++ b)).reverse)

/-- Removes the trailing empty segments, i.e. the trailing '/' characters
of the path string (the `matchedSlash` skipping of Node's dirname and
basename). -/
def dropTrailingEmpties (p : List String) : List String :=
  (p.reverse.dropWhile (fun s => s == "")).reverse

/-- Node `path.posix.dirname` on segment lists: skip trailing separators,
drop the last segment; "." or "/" when nothing remains, "//" kept as
Node's special double-root. -/
def dirnameSegs (p : List String) : List String :=
  let d := (dropTrailingEmpties p).dropLast
  if d = [] then (if isAbsSegs p then [(""), ("")] else ["."])
  else if d = [("")] then [(""), ("")]
  else if d = [(""), ("")] then [(""), (""), ("")]
  else d

/-- Node `path.posix.basename` on segment lists: the last segment once
trailing separators are skipped, "" when nothing remains. -/
def basenameSegs (p : List String) : String :=
  ((dropTrailingEmpties p).getLast?).getD ("")

/-- A segment list is a genuine split of a path string iff no segment
contains a '/' of its own, i.e. splitting any segment returns it alone. -/
def validSegs (p : List String) : Prop :=
  ∀ s ∈ p, segsOfString s = [s]

/-- The fields of the plugin's package.json that the command reads.
Fields that JavaScript may find absent (or null) are Options. -/
structure Manifest where
  name : Option String
  version : String
  main : Option String
  bundleMain : Option String
deriving DecidableEq, Repr

/-- JavaScript `x || ''` for a possibly-absent string field: the empty
string when the field is missing or empty (falsy). -/
def jsOrEmpty : Option String → String
  | none => ""
  | some s => if s = "" then "" else s

/-- deriveOutputFileName (bundle.ts lines 19-22): the template
`${packageJson.name || ''}-${packageJson.version}.tgz`. -/
def deriveOutputFileName (m : Manifest) : String :=
  jsOrEmpty m.name ++ "-" ++ m.version ++ ".tgz"

/-- The filesystem oracle: what `pathExists` and `lstat(..).isDirectory()`
answer for each queried path. -/
structure FS where
  pathExists : List String → Bool
  isDirectory : List String → Bool

/-- The whole environment of one invocation: filesystem, working
directory, the manifest content read by readJSON, the operator's answer
to the confirmation prompt, and the outcomes of the external calls.
`mkdirpSucceeds` is the fate of the unawaited `mkdirp(dir)` promise. -/
structure Env where
  fs : FS
  cwd : List String
  manifest : Manifest
  promptConfirm : Bool
  mkdirpSucceeds : Bool
  installOk : Bool
  buildOk : Bool
  packOk : Bool

/-- The observable side effects of one run, in order. -/
inductive Effect
  | prompted (dir : List String)
  | mkdirCalled (dir : List String)
  | installed (dir : List String)
  | ensuredDir (dir : List String)
  | built (dir : List String) (entry : String) (out : List String)
  | packed (dir : List String) (out : List String)
deriving DecidableEq, Repr

/-- The error exits of the command (`this.error` calls and propagated
rejections of the external tools). -/
inductive BundleError
  | statFailed (p : List String)
  | notADirectory (p : List String)
  | outputDirNotFound (d : List String)
  | installFailed
  | buildFailed
  | packFailed
deriving DecidableEq, Repr

/-- The values a successful run has computed. -/
structure RunResult where
  outputFile : List String
  entry : String
  bundleMain : String
  bundleOut : List String
deriving DecidableEq, Repr

/-- Output-target resolution (bundle.ts lines 49-92): existing directory,
existing file, or a not-yet-existing path split at the trailing separator,
with the confirmation prompt and the unawaited mkdirp on a missing parent.
Returns the effects performed and the (still unresolved) output path. -/
def resolveOutput (env : Env) (o : List String) :
    List Effect × Except BundleError (List String) :=
  if env.fs.pathExists o then
    if env.fs.isDirectory o then
      ([], Except.ok (pathResolve env.cwd
        (pathJoin o (segsOfString (deriveOutputFileName env.manifest)))))
    else ([], Except.ok o)
  else
    let dir := if endsWithSep o then o else dirnameSegs o
    let file : Option String :=
      if endsWithSep o then none else some (basenameSegs o)
    if env.fs.pathExists dir then
      ([], Except.ok (pathJoin dir
        (segsOfString (file.getD (deriveOutputFileName env.manifest)))))
    else if env.promptConfirm then
      ([Effect.prompted dir, Effect.mkdirCalled dir],
        Except.ok (pathJoin dir
          (segsOfString (file.getD (deriveOutputFileName env.manifest)))))
    else
      ([Effect.prompted dir], Except.error (BundleError.outputDirNotFound dir))

/-- The pipeline after output resolution (bundle.ts lines 94-125):
resolve the two absolute paths, install, read the manifest, resolve the
entry and the bundle output, ensure its parent directory, build, pack. -/
def afterResolve (env : Env) (d : List String) (tr : List Effect)
    (output : List String) : List Effect × Except BundleError RunResult :=
  let inputDirectory := pathResolve env.cwd d
  let outputFile := pathResolve env.cwd output
  if ¬ env.installOk then
    (tr ++ [Effect.installed inputDirectory], Except.error BundleError.installFailed)
  else
    let entry := (env.manifest.main).getD
      (if env.fs.pathExists (pathJoin inputDirectory (segsOfString ("index.tsx")))
        then "index.tsx" else "index.jsx")
    let bundleMain := (env.manifest.bundleMain).getD ("dist/index.js")
    let out := pathResolve2 env.cwd inputDirectory (segsOfString bundleMain)
    if ¬ env.buildOk then
      (tr ++ [Effect.installed inputDirectory, Effect.ensuredDir (dirnameSegs out),
        Effect.built inputDirectory entry out], Except.error BundleError.buildFailed)
    else if ¬ env.packOk then
      (tr ++ [Effect.installed inputDirectory, Effect.ensuredDir (dirnameSegs out),
        Effect.built inputDirectory entry out, Effect.packed inputDirectory outputFile],
        Except.error BundleError.packFailed)
    else
      (tr ++ [Effect.installed inputDirectory, Effect.ensuredDir (dirnameSegs out),
        Effect.built inputDirectory entry out, Effect.packed inputDirectory outputFile],
        Except.ok { outputFile := outputFile, entry := entry,
                    bundleMain := bundleMain, bundleOut := out })

/-- Forwards an output-resolution failure, otherwise enters the
pipeline. -/
def continueWith (env : Env) (d : List String) :
    List Effect × Except BundleError (List String) →
      List Effect × Except BundleError RunResult
  | (tr, Except.error e) => (tr, Except.error e)
  | (tr, Except.ok output) => afterResolve env d tr output

/-- Bundle.run (bundle.ts lines 41-126): validate the input directory,
resolve the output target, then run the pipeline. -/
def run (env : Env) (d o : List String) :
    List Effect × Except BundleError RunResult :=
  if ¬ env.fs.pathExists d then ([], Except.error (BundleError.statFailed d))
  else if ¬ env.fs.isDirectory d then ([], Except.error (BundleError.notADirectory d))
  else continueWith env d (resolveOutput env o)

/-- Whether an effect is a dependency installation. -/
def Effect.isInstall : Effect → Bool
  | .installed _ => true
  | _ => false

/-- Whether an effect is a compiler invocation. -/
def Effect.isBuild : Effect → Bool
  | .built _ _ _ => true
  | _ => false

/-- Whether an effect is an archive-packing invocation. -/
def Effect.isPack : Effect → Bool
  | .packed _ _ => true
  | _ => false

/-- A stack entry that the normalization fold may pop: neither an empty
segment nor a ".". -/
def okStack (l : List String) : Prop :=
  ∀ s ∈ l, ¬(s = "" ∨ s = ".")

/-- A stack with only genuine name segments: no empty segment, no "."
and no "..". -/
def goodStack (l : List String) : Prop :=
  ∀ s ∈ l, ¬(s = "" ∨ s = "." ∨ s = "..")

/-- A manifest with name "my-plugin" and version "1.2.3", no declared
main and no declared bundleMain. -/
def mBase : Manifest :=
  { name := some ("my-plugin"), version := ("1.2.3"), main := none, bundleMain := none }

/-- A manifest with no name field at all. -/
def mNoName : Manifest :=
  { name := none, version := ("2.0.0"), main := none, bundleMain := none }

/-- A finite filesystem oracle given by the lists of existing paths and
of paths that are directories. -/
def fsOf (ex dirs : List (List String)) : FS :=
  { pathExists := fun p => ex.contains p, isDirectory := fun p => dirs.contains p }

/-- An environment over `mBase` with working directory "/w". -/
def envOf (fs : FS) (confirm inst : Bool) : Env :=
  { fs := fs, cwd := [(""), ("w")], manifest := mBase, promptConfirm := confirm,
    mkdirpSucceeds := true, installOk := inst, buildOk := true, packOk := true }

/-- Environment where the input "plugin" and the output target "out" both
exist and are directories. -/
def envDirOut : Env :=
  envOf (fsOf [[("plugin")], [("out")]] [[("plugin")], [("out")]]) true true

/-- Environment where only "plugin" and the directory "sub" exist, so an
output target inside "sub" names a fresh file. -/
def envParent : Env :=
  envOf (fsOf [[("plugin")], [("sub")]] [[("plugin")], [("sub")]]) true true

/-- Environment where only "plugin" exists and the operator confirms
directory creation. -/
def envNewDir : Env :=
  envOf (fsOf [[("plugin")]] [[("plugin")]]) true true

/-- Environment where only "plugin" exists and the operator declines
directory creation. -/
def envDecline : Env :=
  envOf (fsOf [[("plugin")]] [[("plugin")]]) false true

/-- Environment where the input path "plugin" exists but is not a
directory. -/
def envNotDir : Env :=
  envOf (fsOf [[("plugin")]] []) true true

/-- Environment where dependency installation fails. -/
def envInstallFail : Env :=
  envOf (fsOf [[("plugin")], [("out")]] [[("plugin")], [("out")]]) true false

/-- The trace of the successful run of `envDirOut` on input "plugin" and
output target "out". -/
def trDirOut : List Effect :=
  [Effect.installed [(""), ("w"), ("plugin")],
   Effect.ensuredDir [(""), ("w"), ("plugin"), ("dist")],
   Effect.built [(""), ("w"), ("plugin")] ("index.jsx")
     [(""), ("w"), ("plugin"), ("dist"), ("index.js")],
   Effect.packed [(""), ("w"), ("plugin")]
     [(""), ("w"), ("out"), ("my-plugin-1.2.3.tgz")]]

/-- The result of the successful run of `envDirOut` on input "plugin" and
output target "out". -/
def rDirOut : RunResult :=
  { outputFile := [(""), ("w"), ("out"), ("my-plugin-1.2.3.tgz")],
    entry := ("index.jsx"), bundleMain := ("dist/index.js"),
    bundleOut := [(""), ("w"), ("plugin"), ("dist"), ("index.js")] }

/-- The trace of the successful run of `envParent` on input "plugin" and
output target "sub/x.tgz". -/
def trParent : List Effect :=
  [Effect.installed [(""), ("w"), ("plugin")],
   Effect.ensuredDir [(""), ("w"), ("plugin"), ("dist")],
   Effect.built [(""), ("w"), ("plugin")] ("index.jsx")
     [(""), ("w"), ("plugin"), ("dist"), ("index.js")],
   Effect.packed [(""), ("w"), ("plugin")] [(""), ("w"), ("sub"), ("x.tgz")]]

/-- The result of the successful run of `envParent` on input "plugin" and
output target "sub/x.tgz". -/
def rParent : RunResult :=
  { outputFile := [(""), ("w"), ("sub"), ("x.tgz")],
    entry := ("index.jsx"), bundleMain := ("dist/index.js"),
    bundleOut := [(""), ("w"), ("plugin"), ("dist"), ("index.js")] }

/-- The trace of the successful run of `envNewDir` on input "plugin" and
output target "newdir/". -/
def trNewDir : List Effect :=
  [Effect.prompted [("newdir"), ("")],
   Effect.mkdirCalled [("newdir"), ("")],
   Effect.installed [(""), ("w"), ("plugin")],
   Effect.ensuredDir [(""), ("w"), ("plugin"), ("dist")],
   Effect.built [(""), ("w"), ("plugin")] ("index.jsx")
     [(""), ("w"), ("plugin"), ("dist"), ("index.js")],
   Effect.packed [(""), ("w"), ("plugin")]
     [(""), ("w"), ("newdir"), ("my-plugin-1.2.3.tgz")]]

/-- The trace of the failing run of `envInstallFail` on input "plugin"
and output target "out": installation was attempted and nothing else. -/
def trInstallFail : List Effect :=
  [Effect.installed [(""), ("w"), ("plugin")]]

/-- The result of the successful run of `envNewDir` on input "plugin" and
output target "newdir/". -/
def rNewDir : RunResult :=
  { outputFile := [(""), ("w"), ("newdir"), ("my-plugin-1.2.3.tgz")],
    entry := ("index.jsx"), bundleMain := ("dist/index.js"),
    bundleOut := [(""), ("w"), ("plugin"), ("dist"), ("index.js")] }

theorem normStep_seg_empty (ab : Bool) (acc : List String) : normStep ab acc ("") = acc := by
  simp [normStep]

theorem normStep_seg_dot (ab : Bool) (acc : List String) : normStep ab acc (".") = acc := by
  simp [normStep]

theorem normFold_nil (ab : Bool) (acc : List String) : normFold ab acc [] = acc := rfl

theorem normFold_cons (ab : Bool) (acc : List String) (s : String) (p : List String) :
    normFold ab acc (s :: p) = normFold ab (normStep ab acc s) p := rfl

theorem normFold_append (ab : Bool) (acc : List String) (p q : List String) :
    normFold ab acc (p ++ q) = normFold ab (normFold ab acc p) q := by
  simp [normFold, List.foldl_append]

theorem normFold_singleton (ab : Bool) (acc : List String) (s : String) :
    normFold ab acc [s] = normStep ab acc s := rfl

theorem okStack_nil : okStack [] := by
  intro s hs
  cases hs

theorem goodStack_nil : goodStack [] := by
  intro s hs
  cases hs

theorem normStep_special (ab : Bool) (acc : List String) (s : String)
    (h1 : s = "" ∨ s = ".") : normStep ab acc s = acc := by
  unfold normStep
  rw [if_pos h1]

theorem normStep_dotdot_nil (ab : Bool) :
    normStep ab [] ("..") = if ab then [("..")] else [] := by
  simp [normStep]

theorem normStep_dotdot_cons (ab : Bool) (a : String) (t : List String) :
    normStep ab (a :: t) ("..") = if a = ".." then ".." :: a :: t else t := by
  simp [normStep]

theorem normStep_real (ab : Bool) (acc : List String) (s : String)
    (h1 : ¬(s = "" ∨ s = ".")) (h2 : s ≠ "..") : normStep ab acc s = s :: acc := by
  unfold normStep
  rw [if_neg h1, if_neg h2]

theorem okStack_step (ab : Bool) (acc : List String) (h : okStack acc) (s : String) :
    okStack (normStep ab acc s) := by
  intro x hx
  by_cases h1 : s = "" ∨ s = "."
  · rw [normStep_special ab acc s h1] at hx
    exact h x hx
  · by_cases h2 : s = ".."
    · subst h2
      cases acc with
      | nil =>
        rw [normStep_dotdot_nil] at hx
        cases ab with
        | false => simp at hx
        | true =>
          simp at hx
          simp [hx]
      | cons a t =>
        rw [normStep_dotdot_cons] at hx
        by_cases ha : a = ".."
        · rw [if_pos ha] at hx
          rcases List.mem_cons.mp hx with rfl | hx
          · simp
          · exact h x hx
        · rw [if_neg ha] at hx
          exact h x (List.mem_cons_of_mem a hx)
    · rw [normStep_real ab acc s h1 h2] at hx
      rcases List.mem_cons.mp hx with rfl | hx
      · exact h1
      · exact h x hx

theorem goodStack_step (acc : List String) (h : goodStack acc) (s : String) :
    goodStack (normStep false acc s) := by
  intro x hx
  by_cases h1 : s = "" ∨ s = "."
  · rw [normStep_special false acc s h1] at hx
    exact h x hx
  · by_cases h2 : s = ".."
    · subst h2
      cases acc with
      | nil =>
        rw [normStep_dotdot_nil] at hx
        simp at hx
      | cons a t =>
        have ha : a ≠ ".." := by
          intro he
          exact h a (List.mem_cons_self a t) (Or.inr (Or.inr he))
        rw [normStep_dotdot_cons, if_neg ha] at hx
        exact h x (List.mem_cons_of_mem a hx)
    · rw [normStep_real false acc s h1 h2] at hx
      rcases List.mem_cons.mp hx with rfl | hx
      · push_neg at h1
        intro hc
        rcases hc with hc | hc | hc
        · exact h1.1 hc
        · exact h1.2 hc
        · exact h2 hc
      · exact h x hx

theorem okStack_fold (ab : Bool) (p : List String) :
    ∀ acc, okStack acc → okStack (normFold ab acc p) := by
  induction p with
  | nil => intro acc h; exact h
  | cons s p ih =>
    intro acc h
    rw [normFold_cons]
    exact ih (normStep ab acc s) (okStack_step ab acc h s)

theorem goodStack_fold (p : List String) :
    ∀ acc, goodStack acc → goodStack (normFold false acc p) := by
  induction p with
  | nil => intro acc h; exact h
  | cons s p ih =>
    intro acc h
    rw [normFold_cons]
    exact ih (normStep false acc s) (goodStack_step acc h s)

theorem normFold_reverse_good (acc : List String) (h : goodStack acc) :
    ∀ C, normFold false C acc.reverse = acc ++ C := by
  induction acc with
  | nil => intro C; rfl
  | cons a t ih =>
    intro C
    have ha := h a (List.mem_cons_self a t)
    have ht : goodStack t := fun s hs => h s (List.mem_cons_of_mem a hs)
    push_neg at ha
    rw [List.reverse_cons, normFold_append, ih ht, normFold_singleton]
    unfold normStep
    rw [if_neg (by push_neg; exact ⟨ha.1, ha.2.1⟩), if_neg ha.2.2]
    rfl

theorem normStep_square (C acc : List String) (s : String) (h : okStack acc) :
    normFold false C (normStep true acc s).reverse
      = normStep false (normFold false C acc.reverse) s := by
  by_cases h1 : s = "" ∨ s = "."
  · rw [show normStep true acc s = acc from by unfold normStep; rw [if_pos h1]]
    rw [show normStep false (normFold false C acc.reverse) s = normFold false C acc.reverse from
      by unfold normStep; rw [if_pos h1]]
  · by_cases h2 : s = ".."
    · subst h2
      cases acc with
      | nil =>
        rw [show normStep true [] ".." = [".."] from by simp [normStep]]
        rfl
      | cons a t =>
        by_cases ha : a = ".."
        · subst ha
          rw [show normStep true (".." :: t) ".." = ".." :: ".." :: t from by simp [normStep]]
          rw [List.reverse_cons, normFold_append, normFold_singleton]
        · have hA := h a (List.mem_cons_self a t)
          push_neg at hA
          rw [show normStep true (a :: t) ".." = t from by simp [normStep, ha]]
          rw [List.reverse_cons, normFold_append, normFold_singleton]
          rw [show normStep false (normFold false C t.reverse) a
              = a :: normFold false C t.reverse from
            by unfold normStep; rw [if_neg (by push_neg; exact ⟨hA.1, hA.2⟩), if_neg ha]]
          rw [show normStep false (a :: normFold false C t.reverse) ".."
              = normFold false C t.reverse from by simp [normStep, ha]]
    · push_neg at h1
      rw [show normStep true acc s = s :: acc from by simp [normStep, h1.1, h1.2, h2]]
      rw [List.reverse_cons, normFold_append, normFold_singleton]

theorem normFold_true_elim (p : List String) :
    ∀ acc C, okStack acc →
      normFold false C (normFold true acc p).reverse
        = normFold false C (acc.reverse ++ p) := by
  induction p with
  | nil =>
    intro acc C _
    rw [List.append_nil, normFold_nil]
  | cons s p ih =>
    intro acc C h
    rw [normFold_cons, ih (normStep true acc s) C (okStack_step true acc h s)]
    rw [normFold_append, normFold_append, normStep_square C acc s h, normFold_cons]

theorem isAbsSegs_nil : isAbsSegs [] = false := rfl

theorem isAbsSegs_single (s : String) : isAbsSegs [s] = false := by
  simp [isAbsSegs]

theorem isAbsSegs_cons_ne (c : String) (l : List String) (hc : c ≠ "") :
    isAbsSegs (c :: l) = false := by
  simp [isAbsSegs, hc]

theorem isAbsSegs_empty_cons (x : String) (l : List String) :
    isAbsSegs ("" :: x :: l) = true := by
  simp [isAbsSegs]

theorem isAbsSegs_renderAbs (core : List String) : isAbsSegs (renderAbs core) = true := by
  unfold renderAbs
  by_cases h : core = []
  · rw [if_pos h]
    rfl
  · rw [if_neg h]
    cases core with
    | nil => exact absurd rfl h
    | cons a t => exact isAbsSegs_empty_cons a t

theorem isAbsSegs_pathResolve (cwd p : List String) :
    isAbsSegs (pathResolve cwd p) = true :=
  isAbsSegs_renderAbs _

theorem normFold_rel_combined (cwd p : List String) (h : isAbsSegs p = false) :
    normFold false [] (if isAbsSegs p then p else cwd ++ p)
      = normFold false (normFold false [] cwd) p := by
  rw [if_neg (by rw [h]; exact Bool.false_ne_true), normFold_append]

theorem pathResolve_renderAbs (cwd B : List String) (h : goodStack B) :
    pathResolve cwd (renderAbs B.reverse) = renderAbs B.reverse := by
  unfold pathResolve
  cases hBr : B.reverse with
  | nil =>
    have hB : B = [] := by
      rw [List.reverse_eq_nil_iff] at hBr
      exact hBr
    rw [show renderAbs [] = [(""), ("")] from rfl]
    rw [if_pos (by rfl)]
    rfl
  | cons c rest =>
    have hr : renderAbs (c :: rest) = ("") :: c :: rest := by
      unfold renderAbs
      rw [if_neg (List.cons_ne_nil c rest)]
    rw [hr, if_pos (isAbsSegs_empty_cons c rest)]
    rw [normFold_cons, normStep_special false _ _ (Or.inl rfl)]
    rw [← hBr, normFold_reverse_good B h [], List.append_nil, hBr]
    exact hr

theorem pathResolve_idem (cwd p : List String) :
    pathResolve cwd (pathResolve cwd p) = pathResolve cwd p := by
  have h : goodStack (normFold false []
      (if isAbsSegs p then p else cwd ++ p)) :=
    goodStack_fold _ [] goodStack_nil
  exact pathResolve_renderAbs cwd _ h

theorem normalizeSegs_eq (p : List String) (hcond : ¬(p = [] ∨ p = [("")])) :
    normalizeSegs p =
      (let core := (normFold (!(isAbsSegs p)) [] p).reverse
       if core = [] then
         if isAbsSegs p then [(""), ("")]
         else if p.getLast? = some ("") then [("."), ("")]
         else ["."]
       else
         (if isAbsSegs p then [("")] else []) ++ core ++
           (if p.getLast? = some ("") then [("")] else [])) := by
  unfold normalizeSegs
  rw [if_neg hcond]

theorem normFold_trail (C p t : List String) (ht : t = [] ∨ t = [("")]) :
    normFold false C (p ++ t) = normFold false C p := by
  rcases ht with rfl | rfl
  · rw [List.append_nil]
  · rw [normFold_append, normFold_singleton, normStep_special false _ _ (Or.inl rfl)]

theorem pathResolve_normalizeSegs_rel (cwd q : List String)
    (h : isAbsSegs q = false) (hq1 : q ≠ []) (hq2 : q ≠ [("")]) :
    pathResolve cwd (normalizeSegs q) = pathResolve cwd q := by
  have hcond : ¬(q = [] ∨ q = [("")]) := by
    push_neg
    exact ⟨hq1, hq2⟩
  have hN : normalizeSegs q =
      (if (normFold true [] q).reverse = [] then
        (if q.getLast? = some ("") then [("."), ("")] else ["."])
       else (normFold true [] q).reverse ++
         (if q.getLast? = some ("") then [("")] else [])) := by
    rw [normalizeSegs_eq q hcond]
    simp only [h, Bool.not_false, Bool.false_eq_true, if_false, List.nil_append]
  have hkey : normFold false (normFold false [] cwd) ((normFold true [] q).reverse)
      = normFold false (normFold false [] cwd) q := by
    have h2 := normFold_true_elim q [] (normFold false [] cwd) okStack_nil
    rw [List.reverse_nil, List.nil_append] at h2
    exact h2
  by_cases hc : (normFold true [] q).reverse = []
  · rw [hc] at hkey
    rw [normFold_nil] at hkey
    rw [hN, if_pos hc]
    by_cases ht : q.getLast? = some ("")
    · rw [if_pos ht]
      have h1 : isAbsSegs [("."), ("")] = false := by decide
      unfold pathResolve
      rw [normFold_rel_combined cwd _ h1, normFold_rel_combined cwd q h]
      refine congrArg renderAbs (congrArg List.reverse ?_)
      rw [normFold_cons, normStep_special false _ _ (Or.inr rfl),
        normFold_singleton, normStep_special false _ _ (Or.inl rfl)]
      exact hkey
    · rw [if_neg ht]
      have h1 : isAbsSegs [(".")] = false := by decide
      unfold pathResolve
      rw [normFold_rel_combined cwd _ h1, normFold_rel_combined cwd q h]
      refine congrArg renderAbs (congrArg List.reverse ?_)
      rw [normFold_singleton, normStep_special false _ _ (Or.inr rfl)]
      exact hkey
  · rw [hN, if_neg hc]
    obtain ⟨c, rest, hcr⟩ : ∃ c rest, (normFold true [] q).reverse = c :: rest := by
      cases hx : (normFold true [] q).reverse with
      | nil => exact absurd hx hc
      | cons c rest => exact ⟨c, rest, rfl⟩
    have hcmem : c ∈ normFold true [] q := by
      rw [← List.mem_reverse, hcr]
      exact List.mem_cons_self c rest
    have hcok : ¬(c = "" ∨ c = ".") :=
      okStack_fold true q [] okStack_nil c hcmem
    have hcne : c ≠ "" := fun he => hcok (Or.inl he)
    have h1 : isAbsSegs ((normFold true [] q).reverse ++
        (if q.getLast? = some ("") then [("")] else [])) = false := by
      rw [hcr, List.cons_append]
      exact isAbsSegs_cons_ne c _ hcne
    unfold pathResolve
    rw [normFold_rel_combined cwd _ h1, normFold_rel_combined cwd q h]
    refine congrArg renderAbs (congrArg List.reverse ?_)
    rw [normFold_trail (normFold false [] cwd) ((normFold true [] q).reverse) _
      (by by_cases ht : q.getLast? = some ("") <;> simp [ht])]
    exact hkey

theorem pathResolve_abs (cwd q : List String) (h : isAbsSegs q = true) :
    pathResolve cwd q = renderAbs ((normFold false [] q).reverse) := by
  unfold pathResolve
  rw [if_pos h]

theorem pathResolve_normalizeSegs_abs (cwd q : List String) (h : isAbsSegs q = true) :
    pathResolve cwd (normalizeSegs q) = pathResolve cwd q := by
  have hq1 : q ≠ [] := by
    intro he
    rw [he, isAbsSegs_nil] at h
    exact Bool.false_ne_true h
  have hq2 : q ≠ [("")] := by
    intro he
    rw [he, isAbsSegs_single] at h
    exact Bool.false_ne_true h
  have hcond : ¬(q = [] ∨ q = [("")]) := by
    push_neg
    exact ⟨hq1, hq2⟩
  have hgood : goodStack (normFold false [] q) := goodStack_fold q [] goodStack_nil
  have hN : normalizeSegs q =
      (if (normFold false [] q).reverse = [] then [(""), ("")]
       else [("")] ++ (normFold false [] q).reverse ++
         (if q.getLast? = some ("") then [("")] else [])) := by
    rw [normalizeSegs_eq q hcond]
    simp only [h, Bool.not_true, if_true]
  rw [pathResolve_abs cwd q h]
  by_cases hc : (normFold false [] q).reverse = []
  · rw [hN, if_pos hc, hc]
    have habs : isAbsSegs [(""), ("")] = true := by decide
    rw [pathResolve_abs cwd _ habs]
    rw [show normFold false [] [(""), ("")] = [] from rfl]
    rfl
  · rw [hN, if_neg hc]
    obtain ⟨c, rest, hcr⟩ : ∃ c rest, (normFold false [] q).reverse = c :: rest := by
      cases hx : (normFold false [] q).reverse with
      | nil => exact absurd hx hc
      | cons c rest => exact ⟨c, rest, rfl⟩
    have habs : isAbsSegs ([("")] ++ (normFold false [] q).reverse ++
        (if q.getLast? = some ("") then [("")] else [])) = true := by
      rw [hcr]
      rw [show [("")] ++ (c :: rest) ++
          (if q.getLast? = some ("") then [("")] else [])
          = ("") :: c :: (rest ++ (if q.getLast? = some ("") then [("")] else []))
        from by simp]
      exact isAbsSegs_empty_cons c _
    rw [pathResolve_abs cwd _ habs]
    rw [show [("")] ++ (normFold false [] q).reverse ++
        (if q.getLast? = some ("") then [("")] else [])
        = ("") :: ((normFold false [] q).reverse ++
          (if q.getLast? = some ("") then [("")] else [])) from by simp]
    rw [normFold_cons, normStep_special false _ _ (Or.inl rfl)]
    rw [normFold_trail _ _ _ (by by_cases ht : q.getLast? = some ("") <;> simp [ht])]
    rw [normFold_reverse_good _ hgood [], List.append_nil]

theorem pathResolve_normalizeSegs (cwd q : List String) :
    pathResolve cwd (normalizeSegs q) = pathResolve cwd q := by
  by_cases h0 : q = [] ∨ q = [("")]
  · have hN : normalizeSegs q = ["."] := by
      unfold normalizeSegs
      rw [if_pos h0]
    rw [hN]
    have h1 : isAbsSegs [(".")] = false := by decide
    unfold pathResolve
    rw [normFold_rel_combined cwd _ h1]
    rw [normFold_singleton, normStep_special false _ _ (Or.inr rfl)]
    rcases h0 with rfl | rfl
    · rw [if_neg (by rw [isAbsSegs_nil]; exact Bool.false_ne_true), List.append_nil]
    · rw [if_neg (by rw [isAbsSegs_single]; exact Bool.false_ne_true)]
      rw [normFold_trail _ _ _ (Or.inr rfl)]
  · cases habs : isAbsSegs q with
    | false =>
      push_neg at h0
      exact pathResolve_normalizeSegs_rel cwd q habs h0.1 h0.2
    | true => exact pathResolve_normalizeSegs_abs cwd q habs

theorem dropTrailingEmpties_concat (init : List String) (b : String) (hb : b ≠ "") :
    dropTrailingEmpties (init ++ [b]) = init ++ [b] := by
  unfold dropTrailingEmpties
  have hbeq : (b == "") = false := beq_eq_false_iff_ne.mpr hb
  simp [List.dropWhile_cons, hbeq]

theorem basenameSegs_concat (init : List String) (b : String) (hb : b ≠ "") :
    basenameSegs (init ++ [b]) = b := by
  unfold basenameSegs
  rw [dropTrailingEmpties_concat init b hb, List.getLast?_concat]
  rfl

theorem dirnameSegs_concat (init : List String) (b : String) (hb : b ≠ "")
    (h1 : init ≠ []) (h2 : init ≠ [("")]) (h3 : init ≠ [(""), ("")]) :
    dirnameSegs (init ++ [b]) = init := by
  unfold dirnameSegs
  rw [dropTrailingEmpties_concat init b hb, List.dropLast_concat]
  rw [if_neg h1, if_neg h2, if_neg h3]

theorem dirnameSegs_single (b : String) (hb : b ≠ "") : dirnameSegs [b] = ["."] := by
  have h0 : dropTrailingEmpties [b] = [b] := by
    have h1 := dropTrailingEmpties_concat [] b hb
    simpa using h1
  unfold dirnameSegs
  rw [h0]
  rw [show ([b] : List String).dropLast = [] from rfl]
  rw [if_pos rfl]
  rw [if_neg (by rw [isAbsSegs_single]; exact Bool.false_ne_true)]

theorem dirnameSegs_rootfile (b : String) (hb : b ≠ "") :
    dirnameSegs [(""), b] = [(""), ("")] := by
  have h0 : dropTrailingEmpties [(""), b] = [(""), b] := by
    have h1 := dropTrailingEmpties_concat [("")] b hb
    simpa using h1
  unfold dirnameSegs
  rw [h0]
  rw [show ([(""), b] : List String).dropLast = [("")] from rfl]
  rw [if_neg (List.cons_ne_nil _ _), if_pos rfl]

theorem dirnameSegs_doubleroot (b : String) (hb : b ≠ "") :
    dirnameSegs [(""), (""), b] = [(""), (""), ("")] := by
  have h0 : dropTrailingEmpties [(""), (""), b] = [(""), (""), b] := by
    have h1 := dropTrailingEmpties_concat [(""), ("")] b hb
    simpa using h1
  unfold dirnameSegs
  rw [h0]
  rw [show ([(""), (""), b] : List String).dropLast = [(""), ("")] from rfl]
  rw [if_neg (List.cons_ne_nil _ _)]
  rw [if_neg (by intro hx; injection hx with hx1 hx2; exact List.cons_ne_nil _ _ hx2)]
  rw [if_pos rfl]

theorem pathJoin_eq (a c : List String) (ha : ¬(a = [] ∨ a = [("")]))
    (hc : ¬(c = [] ∨ c = [("")])) : pathJoin a c = normalizeSegs (a ++ c) := by
  unfold pathJoin
  rw [if_neg (fun h => ha h.1), if_neg ha, if_neg hc]

theorem singleton_cond (b : String) (hb : b ≠ "") :
    ¬(([b] : List String) = [] ∨ ([b] : List String) = [("")]) := by
  push_neg
  refine ⟨List.cons_ne_nil b [], ?_⟩
  intro hx
  injection hx with hx1 hx2
  exact hb hx1

theorem resolve_join_dirname_basename (cwd o : List String) (hv : validSegs o)
    (ho : o ≠ []) (hts : endsWithSep o = false) :
    pathResolve cwd (pathJoin (dirnameSegs o) (segsOfString (basenameSegs o)))
      = pathResolve cwd o := by
  by_cases hE : o = [("")]
  · subst hE
    have hcalc : pathJoin (dirnameSegs [("")]) (segsOfString (basenameSegs [("")]))
        = ["."] := by decide
    rw [hcalc]
    have h1 : isAbsSegs [(".")] = false := by decide
    have h2 : isAbsSegs [("")] = false := by decide
    unfold pathResolve
    rw [normFold_rel_combined cwd _ h1, normFold_rel_combined cwd _ h2]
    refine congrArg renderAbs (congrArg List.reverse ?_)
    rw [normFold_singleton, normStep_special false _ _ (Or.inr rfl),
        normFold_singleton, normStep_special false _ _ (Or.inl rfl)]
  · have hlast : o.getLast? ≠ some ("") := by
      intro hcon
      by_cases hlen : 2 ≤ o.length
      · have hsep : endsWithSep o = true := by
          unfold endsWithSep
          rw [decide_eq_true hcon, decide_eq_true hlen]
          rfl
        rw [hsep] at hts
        simp at hts
      · have h0 : o.length ≠ 0 := by
          intro hz
          exact ho (List.length_eq_zero.mp hz)
        have h1 : o.length = 1 := by omega
        obtain ⟨x, rfl⟩ := List.length_eq_one.mp h1
        simp at hcon
        exact hE (by rw [hcon])
    obtain ⟨init, b, rfl⟩ : ∃ init b, o = init ++ [b] := by
      rcases List.eq_nil_or_concat o with h | ⟨init, b, h⟩
      · exact absurd h ho
      · exact ⟨init, b, by rw [h, List.concat_eq_append]⟩
    have hb : b ≠ "" := by
      intro he
      apply hlast
      rw [List.getLast?_concat, he]
    have hsplit : segsOfString b = [b] := hv b (by simp)
    rw [basenameSegs_concat init b hb, hsplit]
    by_cases h1 : init = []
    · subst h1
      simp only [List.nil_append]
      rw [dirnameSegs_single b hb]
      rw [pathJoin_eq [(".")] [b] (by decide) (singleton_cond b hb)]
      rw [show [(".")] ++ [b] = [("."), b] from rfl]
      rw [pathResolve_normalizeSegs]
      have ha1 : isAbsSegs [("."), b] = false := isAbsSegs_cons_ne "." _ (by decide)
      have ha2 : isAbsSegs [b] = false := isAbsSegs_single b
      unfold pathResolve
      rw [normFold_rel_combined cwd _ ha1, normFold_rel_combined cwd _ ha2]
      refine congrArg renderAbs (congrArg List.reverse ?_)
      rw [normFold_cons, normStep_special false _ _ (Or.inr rfl)]
    · by_cases h2 : init = [("")]
      · subst h2
        simp only [List.cons_append, List.nil_append]
        rw [dirnameSegs_rootfile b hb]
        rw [pathJoin_eq [(""), ("")] [b] (by decide) (singleton_cond b hb)]
        rw [show [(""), ("")] ++ [b] = [(""), (""), b] from rfl]
        rw [pathResolve_normalizeSegs]
        have ha1 : isAbsSegs [(""), (""), b] = true := isAbsSegs_empty_cons _ _
        have ha2 : isAbsSegs [(""), b] = true := isAbsSegs_empty_cons _ _
        rw [pathResolve_abs cwd _ ha1, pathResolve_abs cwd _ ha2]
        refine congrArg renderAbs (congrArg List.reverse ?_)
        simp only [normFold_cons, normStep_seg_empty]
      · by_cases h3 : init = [(""), ("")]
        · subst h3
          simp only [List.cons_append, List.nil_append]
          rw [dirnameSegs_doubleroot b hb]
          rw [pathJoin_eq [(""), (""), ("")] [b] (by decide) (singleton_cond b hb)]
          rw [show [(""), (""), ("")] ++ [b] = [(""), (""), (""), b] from rfl]
          rw [pathResolve_normalizeSegs]
          have ha1 : isAbsSegs [(""), (""), (""), b] = true := isAbsSegs_empty_cons _ _
          have ha2 : isAbsSegs [(""), (""), b] = true := isAbsSegs_empty_cons _ _
          rw [pathResolve_abs cwd _ ha1, pathResolve_abs cwd _ ha2]
          refine congrArg renderAbs (congrArg List.reverse ?_)
          simp only [normFold_cons, normStep_seg_empty]
        · rw [dirnameSegs_concat init b hb h1 h2 h3]
          rw [pathJoin_eq init [b] (by push_neg; exact ⟨h1, h2⟩) (singleton_cond b hb)]
          exact pathResolve_normalizeSegs cwd (init ++ [b])

theorem resolveOutput_dir (env : Env) (o : List String)
    (h1 : env.fs.pathExists o = true) (h2 : env.fs.isDirectory o = true) :
    resolveOutput env o = ([], Except.ok (pathResolve env.cwd
      (pathJoin o (segsOfString (deriveOutputFileName env.manifest))))) := by
  unfold resolveOutput
  rw [if_pos h1, if_pos h2]

theorem resolveOutput_file (env : Env) (o : List String)
    (h1 : env.fs.pathExists o = true) (h2 : env.fs.isDirectory o = false) :
    resolveOutput env o = ([], Except.ok o) := by
  unfold resolveOutput
  rw [if_pos h1, if_neg (by rw [h2]; exact Bool.false_ne_true)]

theorem resolveOutput_trailing_confirmed (env : Env) (o : List String)
    (h1 : env.fs.pathExists o = false) (h2 : endsWithSep o = true)
    (h3 : env.promptConfirm = true) :
    resolveOutput env o = ([Effect.prompted o, Effect.mkdirCalled o],
      Except.ok (pathJoin o (segsOfString (deriveOutputFileName env.manifest)))) := by
  unfold resolveOutput
  rw [if_neg (by rw [h1]; exact Bool.false_ne_true)]
  simp only [h2, if_true]
  rw [if_neg (by rw [h1]; exact Bool.false_ne_true), if_pos h3]
  rfl

theorem resolveOutput_file_in_parent (env : Env) (o : List String)
    (h1 : env.fs.pathExists o = false) (h2 : endsWithSep o = false)
    (h3 : env.fs.pathExists (dirnameSegs o) = true) :
    resolveOutput env o = ([], Except.ok (pathJoin (dirnameSegs o)
      (segsOfString (basenameSegs o)))) := by
  unfold resolveOutput
  rw [if_neg (by rw [h1]; exact Bool.false_ne_true)]
  simp only [h2, Bool.false_eq_true, if_false]
  rw [if_pos h3]
  rfl

theorem resolveOutput_declined (env : Env) (o dir : List String)
    (h1 : env.fs.pathExists o = false)
    (hd : dir = if endsWithSep o then o else dirnameSegs o)
    (h2 : env.fs.pathExists dir = false)
    (h3 : env.promptConfirm = false) :
    resolveOutput env o
      = ([Effect.prompted dir], Except.error (BundleError.outputDirNotFound dir)) := by
  unfold resolveOutput
  rw [if_neg (by rw [h1]; exact Bool.false_ne_true)]
  rw [← hd]
  rw [if_neg (by rw [h2]; exact Bool.false_ne_true)]
  rw [if_neg (by rw [h3]; exact Bool.false_ne_true)]

theorem resolveOutput_confirmed (env : Env) (o dir : List String)
    (h1 : env.fs.pathExists o = false)
    (hd : dir = if endsWithSep o then o else dirnameSegs o)
    (h2 : env.fs.pathExists dir = false)
    (h3 : env.promptConfirm = true) :
    resolveOutput env o = ([Effect.prompted dir, Effect.mkdirCalled dir],
      Except.ok (pathJoin dir (segsOfString
        ((if endsWithSep o then (none : Option String)
          else some (basenameSegs o)).getD (deriveOutputFileName env.manifest))))) := by
  unfold resolveOutput
  rw [if_neg (by rw [h1]; exact Bool.false_ne_true)]
  rw [← hd]
  rw [if_neg (by rw [h2]; exact Bool.false_ne_true)]
  rw [if_pos h3]

theorem run_resolved (env : Env) (d o : List String) (tr0 : List Effect)
    (out : List String)
    (hde : env.fs.pathExists d = true) (hdd : env.fs.isDirectory d = true)
    (hres : resolveOutput env o = (tr0, Except.ok out)) :
    run env d o = afterResolve env d tr0 out := by
  unfold run
  rw [if_neg (not_not_intro hde), if_neg (not_not_intro hdd), hres]
  rfl

theorem run_resolve_error (env : Env) (d o : List String) (tr0 : List Effect)
    (e : BundleError)
    (hde : env.fs.pathExists d = true) (hdd : env.fs.isDirectory d = true)
    (hres : resolveOutput env o = (tr0, Except.error e)) :
    run env d o = (tr0, Except.error e) := by
  unfold run
  rw [if_neg (not_not_intro hde), if_neg (not_not_intro hdd), hres]
  rfl

theorem run_ok (env : Env) (d o : List String) (tr : List Effect) (r : RunResult)
    (h : run env d o = (tr, Except.ok r)) :
    env.fs.pathExists d = true ∧ env.fs.isDirectory d = true ∧
    ∃ tr0 out, resolveOutput env o = (tr0, Except.ok out)
      ∧ afterResolve env d tr0 out = (tr, Except.ok r) := by
  unfold run at h
  by_cases h1 : env.fs.pathExists d = true
  · rw [if_neg (not_not_intro h1)] at h
    by_cases h2 : env.fs.isDirectory d = true
    · rw [if_neg (not_not_intro h2)] at h
      obtain ⟨tr0, r0, hres⟩ : ∃ tr0 r0, resolveOutput env o = (tr0, r0) := ⟨_, _, rfl⟩
      rw [hres] at h
      cases r0 with
      | error e =>
        rw [show continueWith env d (tr0, Except.error e)
            = (tr0, Except.error e) from rfl] at h
        simp only [Prod.mk.injEq] at h
        exact absurd h.2 (fun hx => Except.noConfusion hx)
      | ok out =>
        rw [show continueWith env d (tr0, Except.ok out)
            = afterResolve env d tr0 out from rfl] at h
        exact ⟨h1, h2, tr0, out, hres, h⟩
    · rw [if_pos h2] at h
      simp only [Prod.mk.injEq] at h
      exact absurd h.2 (fun hx => Except.noConfusion hx)
  · rw [if_pos h1] at h
    simp only [Prod.mk.injEq] at h
    exact absurd h.2 (fun hx => Except.noConfusion hx)

theorem afterResolve_ok (env : Env) (d : List String) (tr0 : List Effect)
    (output : List String) (tr : List Effect) (r : RunResult)
    (h : afterResolve env d tr0 output = (tr, Except.ok r)) :
    env.installOk = true ∧ env.buildOk = true ∧ env.packOk = true ∧
    r.outputFile = pathResolve env.cwd output ∧
    r.entry = (env.manifest.main).getD
      (if env.fs.pathExists (pathJoin (pathResolve env.cwd d)
          (segsOfString ("index.tsx"))) then "index.tsx" else "index.jsx") ∧
    r.bundleMain = (env.manifest.bundleMain).getD ("dist/index.js") ∧
    r.bundleOut = pathResolve2 env.cwd (pathResolve env.cwd d)
      (segsOfString r.bundleMain) ∧
    tr = tr0 ++ [Effect.installed (pathResolve env.cwd d),
      Effect.ensuredDir (dirnameSegs r.bundleOut),
      Effect.built (pathResolve env.cwd d) r.entry r.bundleOut,
      Effect.packed (pathResolve env.cwd d) r.outputFile] := by
  unfold afterResolve at h
  by_cases hI : env.installOk = true
  · rw [if_neg (not_not_intro hI)] at h
    simp only [] at h
    by_cases hB : env.buildOk = true
    · rw [if_neg (not_not_intro hB)] at h
      by_cases hP : env.packOk = true
      · rw [if_neg (not_not_intro hP)] at h
        simp only [Prod.mk.injEq, Except.ok.injEq] at h
        obtain ⟨htr, hr⟩ := h
        subst hr
        exact ⟨hI, hB, hP, rfl, rfl, rfl, rfl, htr.symm⟩
      · rw [if_pos hP] at h
        simp only [Prod.mk.injEq] at h
        exact absurd h.2 (fun hx => Except.noConfusion hx)
    · rw [if_pos hB] at h
      simp only [Prod.mk.injEq] at h
      exact absurd h.2 (fun hx => Except.noConfusion hx)
  · rw [if_pos hI] at h
    simp only [Prod.mk.injEq] at h
    exact absurd h.2 (fun hx => Except.noConfusion hx)

theorem resolveOutput_effects (env : Env) (o : List String) :
    ∀ e ∈ (resolveOutput env o).1,
      e.isInstall = false ∧ e.isBuild = false ∧ e.isPack = false := by
  intro e he
  unfold resolveOutput at he
  by_cases h1 : env.fs.pathExists o = true
  · rw [if_pos h1] at he
    by_cases h2 : env.fs.isDirectory o = true
    · rw [if_pos h2] at he
      simp at he
    · rw [if_neg h2] at he
      simp at he
  · rw [if_neg h1] at he
    simp only [] at he
    by_cases h2 : env.fs.pathExists (if endsWithSep o then o else dirnameSegs o) = true
    · rw [if_pos h2] at he
      simp at he
    · rw [if_neg h2] at he
      by_cases h3 : env.promptConfirm = true
      · rw [if_pos h3] at he
        simp at he
        rcases he with rfl | rfl
        · exact ⟨rfl, rfl, rfl⟩
        · exact ⟨rfl, rfl, rfl⟩
      · rw [if_neg h3] at he
        simp at he
        rw [he]
        exact ⟨rfl, rfl, rfl⟩

/-- Claim C1, counterexample: in a run whose manifest declares no main and
whose input directory contains neither index.tsx nor index.jsx, the entry
still resolves to the defined value "index.jsx" — the name of a file that
does not exist — rather than being undefined or the first existing
conventional file. -/
theorem entry_fallback_counterexample :
    (run envDirOut [("plugin")] [("out")]).2 = Except.ok rDirOut ∧
    rDirOut.entry = ("index.jsx") ∧
    envDirOut.manifest.main = none ∧
    envDirOut.fs.pathExists (pathJoin (pathResolve envDirOut.cwd [("plugin")])
      (segsOfString ("index.tsx"))) = false ∧
    envDirOut.fs.pathExists (pathJoin (pathResolve envDirOut.cwd [("plugin")])
      (segsOfString ("index.jsx"))) = false :=
  ⟨rfl, rfl, rfl, rfl, rfl⟩

/-- Claim C1, amended: in every successful run whose manifest declares no
main file, the entry is "index.tsx" when index.tsx exists in the resolved
input directory, and otherwise "index.jsx" whether or not that file
exists; the entry is never undefined. -/
theorem entry_resolution_amended (env : Env) (d o : List String) (tr : List Effect)
    (r : RunResult) (hm : env.manifest.main = none)
    (hrun : run env d o = (tr, Except.ok r)) :
    (env.fs.pathExists (pathJoin (pathResolve env.cwd d)
        (segsOfString ("index.tsx"))) = true → r.entry = ("index.tsx")) ∧
    (env.fs.pathExists (pathJoin (pathResolve env.cwd d)
        (segsOfString ("index.tsx"))) = false → r.entry = ("index.jsx")) := by
  obtain ⟨hde, hdd, tr0, out, hres, haft⟩ := run_ok env d o tr r hrun
  obtain ⟨_, _, _, _, hentry, _, _, _⟩ := afterResolve_ok env d tr0 out tr r haft
  rw [hm, Option.getD_none] at hentry
  constructor
  · intro hx
    rw [hentry, if_pos hx]
  · intro hx
    rw [hentry, if_neg (by rw [hx]; exact Bool.false_ne_true)]

theorem entry_resolution_amended_witness :
    envDirOut.manifest.main = none ∧
    ((envDirOut.fs.pathExists (pathJoin (pathResolve envDirOut.cwd [("plugin")])
        (segsOfString ("index.tsx"))) = true → rDirOut.entry = ("index.tsx")) ∧
     (envDirOut.fs.pathExists (pathJoin (pathResolve envDirOut.cwd [("plugin")])
        (segsOfString ("index.tsx"))) = false → rDirOut.entry = ("index.jsx"))) :=
  ⟨rfl, entry_resolution_amended envDirOut [("plugin")] [("out")] trDirOut rDirOut
    rfl rfl⟩

/-- Claim C2: in every run where the output target exists on disk and is a
directory, the resolved output file is that directory joined with the
derived file name <name>-<version>.tgz, resolved to an absolute path. -/
theorem output_into_existing_directory (env : Env) (d o : List String)
    (tr : List Effect) (r : RunResult)
    (h1 : env.fs.pathExists o = true) (h2 : env.fs.isDirectory o = true)
    (hrun : run env d o = (tr, Except.ok r)) :
    r.outputFile = pathResolve env.cwd
      (pathJoin o (segsOfString (deriveOutputFileName env.manifest))) ∧
    isAbsSegs r.outputFile = true := by
  obtain ⟨hde, hdd, tr0, out, hres, haft⟩ := run_ok env d o tr r hrun
  rw [resolveOutput_dir env o h1 h2] at hres
  simp only [Prod.mk.injEq, Except.ok.injEq] at hres
  obtain ⟨htr0, hout⟩ := hres
  obtain ⟨_, _, _, houtfile, _, _, _, _⟩ := afterResolve_ok env d tr0 out tr r haft
  rw [houtfile, ← hout]
  exact ⟨pathResolve_idem env.cwd _, isAbsSegs_pathResolve env.cwd _⟩

theorem output_into_existing_directory_witness :
    envDirOut.fs.pathExists [("out")] = true ∧
    envDirOut.fs.isDirectory [("out")] = true ∧
    (rDirOut.outputFile = pathResolve envDirOut.cwd
      (pathJoin [("out")] (segsOfString (deriveOutputFileName envDirOut.manifest))) ∧
     isAbsSegs rDirOut.outputFile = true) :=
  ⟨rfl, rfl, output_into_existing_directory envDirOut [("plugin")] [("out")]
    trDirOut rDirOut rfl rfl rfl⟩

/-- Claim C3: in every successful run where the output target does not
exist and ends with a path separator, the target is treated as an intended
directory: the resolved output file is the target joined with the derived
name <name>-<version>.tgz. -/
theorem output_trailing_separator_directory (env : Env) (d o : List String)
    (tr : List Effect) (r : RunResult)
    (h1 : env.fs.pathExists o = false) (h2 : endsWithSep o = true)
    (hrun : run env d o = (tr, Except.ok r)) :
    r.outputFile = pathResolve env.cwd
      (pathJoin o (segsOfString (deriveOutputFileName env.manifest))) := by
  obtain ⟨hde, hdd, tr0, out, hres, haft⟩ := run_ok env d o tr r hrun
  obtain ⟨_, _, _, houtfile, _, _, _, _⟩ := afterResolve_ok env d tr0 out tr r haft
  cases h3 : env.promptConfirm with
  | false =>
    have herr := resolveOutput_declined env o o h1 (by simp [h2]) h1 h3
    rw [herr] at hres
    simp only [Prod.mk.injEq] at hres
    exact absurd hres.2 (fun hx => Except.noConfusion hx)
  | true =>
    have hok := resolveOutput_trailing_confirmed env o h1 h2 h3
    rw [hok] at hres
    simp only [Prod.mk.injEq, Except.ok.injEq] at hres
    obtain ⟨htr0, hout⟩ := hres
    rw [houtfile, ← hout]

theorem output_trailing_separator_directory_witness :
    envNewDir.fs.pathExists [("newdir"), ("")] = false ∧
    endsWithSep [("newdir"), ("")] = true ∧
    rNewDir.outputFile = pathResolve envNewDir.cwd
      (pathJoin [("newdir"), ("")]
        (segsOfString (deriveOutputFileName envNewDir.manifest))) :=
  ⟨rfl, rfl, output_trailing_separator_directory envNewDir [("plugin")]
    [("newdir"), ("")] trNewDir rNewDir rfl rfl rfl⟩

/-- Claim C4: in every successful run where the output target names a file
explicitly — an existing non-directory, or a non-existent path without a
trailing separator whose parent directory exists — the resolved output
file equals the given target made absolute, with no derived name. -/
theorem output_explicit_file (env : Env) (d o : List String)
    (tr : List Effect) (r : RunResult)
    (hv : validSegs o) (ho : o ≠ [])
    (hcase : (env.fs.pathExists o = true ∧ env.fs.isDirectory o = false) ∨
      (env.fs.pathExists o = false ∧ endsWithSep o = false ∧
        env.fs.pathExists (dirnameSegs o) = true))
    (hrun : run env d o = (tr, Except.ok r)) :
    r.outputFile = pathResolve env.cwd o := by
  obtain ⟨hde, hdd, tr0, out, hres, haft⟩ := run_ok env d o tr r hrun
  obtain ⟨_, _, _, houtfile, _, _, _, _⟩ := afterResolve_ok env d tr0 out tr r haft
  rcases hcase with ⟨h1, h2⟩ | ⟨h1, h2, h3⟩
  · rw [resolveOutput_file env o h1 h2] at hres
    simp only [Prod.mk.injEq, Except.ok.injEq] at hres
    rw [houtfile, ← hres.2]
  · rw [resolveOutput_file_in_parent env o h1 h2 h3] at hres
    simp only [Prod.mk.injEq, Except.ok.injEq] at hres
    rw [houtfile, ← hres.2]
    exact resolve_join_dirname_basename env.cwd o hv ho h2

theorem output_explicit_file_witness :
    validSegs [("sub"), ("x.tgz")] ∧
    ([("sub"), ("x.tgz")] : List String) ≠ [] ∧
    (envParent.fs.pathExists [("sub"), ("x.tgz")] = false ∧
      endsWithSep [("sub"), ("x.tgz")] = false ∧
      envParent.fs.pathExists (dirnameSegs [("sub"), ("x.tgz")]) = true) ∧
    rParent.outputFile = pathResolve envParent.cwd [("sub"), ("x.tgz")] :=
  ⟨by unfold validSegs; decide, by decide, ⟨rfl, rfl, rfl⟩,
   output_explicit_file envParent [("plugin")] [("sub"), ("x.tgz")] trParent rParent
     (by unfold validSegs; decide) (by decide) (Or.inr ⟨rfl, rfl, rfl⟩) rfl⟩

/-- Claim C5: in every run where the output parent directory does not
exist and the operator declines the confirmation prompt, the operation
fails with the explicit directory-not-found error, and the trace contains
only the prompt — no directory creation, no install, no compile, no pack,
so no archive is produced. -/
theorem decline_creation_fails (env : Env) (d o dir : List String)
    (hde : env.fs.pathExists d = true) (hdd : env.fs.isDirectory d = true)
    (h1 : env.fs.pathExists o = false)
    (hd : dir = if endsWithSep o then o else dirnameSegs o)
    (h2 : env.fs.pathExists dir = false)
    (h3 : env.promptConfirm = false) :
    run env d o = ([Effect.prompted dir],
      Except.error (BundleError.outputDirNotFound dir)) :=
  run_resolve_error env d o _ _ hde hdd
    (resolveOutput_declined env o dir h1 hd h2 h3)

theorem decline_creation_fails_witness :
    envDecline.promptConfirm = false ∧
    run envDecline [("plugin")] [("newdir"), ("")]
      = ([Effect.prompted [("newdir"), ("")]],
         Except.error (BundleError.outputDirNotFound [("newdir"), ("")])) :=
  ⟨rfl, decline_creation_fails envDecline [("plugin")] [("newdir"), ("")]
    [("newdir"), ("")] rfl rfl rfl (by decide) rfl rfl⟩

/-- Claim C6: in every run where the input path exists but is not a
directory, the operation fails with the not-a-directory error and an empty
effect trace — before any installation, compilation or packing side
effect. -/
theorem input_not_directory_fails (env : Env) (d o : List String)
    (h1 : env.fs.pathExists d = true) (h2 : env.fs.isDirectory d = false) :
    run env d o = ([], Except.error (BundleError.notADirectory d)) := by
  unfold run
  rw [if_neg (not_not_intro h1)]
  rw [if_pos (by rw [h2]; exact Bool.false_ne_true)]

theorem input_not_directory_fails_witness :
    envNotDir.fs.pathExists [("plugin")] = true ∧
    envNotDir.fs.isDirectory [("plugin")] = false ∧
    run envNotDir [("plugin")] [("out")]
      = ([], Except.error (BundleError.notADirectory [("plugin")])) :=
  ⟨rfl, rfl, input_not_directory_fails envNotDir [("plugin")] [("out")] rfl rfl⟩

/-- Claim C7: in every run, a failing external stage aborts the whole
operation: a failed installation means no build or pack effect ever occurs
and the installation error is the outcome; a failed build means no pack
effect occurs and the build error is the outcome; a failed pack makes the
pack error the outcome; in each case no successful result is produced, so
installation must have completed successfully before any build effect. -/
theorem stage_failure_aborts (env : Env) (d o : List String) (tr : List Effect)
    (res : Except BundleError RunResult) (hrun : run env d o = (tr, res)) :
    (env.installOk = false →
      (∀ e ∈ tr, e.isBuild = false ∧ e.isPack = false) ∧
      (∀ r : RunResult, res ≠ Except.ok r) ∧
      ((∃ e ∈ tr, e.isInstall = true) →
        res = Except.error BundleError.installFailed)) ∧
    (env.installOk = true → env.buildOk = false →
      (∀ e ∈ tr, e.isPack = false) ∧
      (∀ r : RunResult, res ≠ Except.ok r) ∧
      ((∃ e ∈ tr, e.isBuild = true) →
        res = Except.error BundleError.buildFailed)) ∧
    (env.installOk = true → env.buildOk = true → env.packOk = false →
      (∀ r : RunResult, res ≠ Except.ok r) ∧
      ((∃ e ∈ tr, e.isPack = true) →
        res = Except.error BundleError.packFailed)) := by
  unfold run at hrun
  by_cases h1 : env.fs.pathExists d = true
  · rw [if_neg (not_not_intro h1)] at hrun
    by_cases h2 : env.fs.isDirectory d = true
    · rw [if_neg (not_not_intro h2)] at hrun
      obtain ⟨tr0, r0, hres⟩ : ∃ a b, resolveOutput env o = (a, b) := ⟨_, _, rfl⟩
      rw [hres] at hrun
      have heff : ∀ x ∈ tr0,
          x.isInstall = false ∧ x.isBuild = false ∧ x.isPack = false := by
        have h0 := resolveOutput_effects env o
        rw [hres] at h0
        exact h0
      cases r0 with
      | error e =>
        rw [show continueWith env d (tr0, Except.error e)
            = (tr0, Except.error e) from rfl] at hrun
        simp only [Prod.mk.injEq] at hrun
        obtain ⟨htr, hres2⟩ := hrun
        subst htr
        subst hres2
        refine ⟨fun _ => ⟨?_, ?_, ?_⟩, fun _ _ => ⟨?_, ?_, ?_⟩,
          fun _ _ _ => ⟨?_, ?_⟩⟩
        · intro x hx
          exact ⟨(heff x hx).2.1, (heff x hx).2.2⟩
        · intro r hr
          exact Except.noConfusion hr
        · intro hex
          obtain ⟨x, hx, hxi⟩ := hex
          rw [(heff x hx).1] at hxi
          exact absurd hxi Bool.false_ne_true
        · intro x hx
          exact (heff x hx).2.2
        · intro r hr
          exact Except.noConfusion hr
        · intro hex
          obtain ⟨x, hx, hxi⟩ := hex
          rw [(heff x hx).2.1] at hxi
          exact absurd hxi Bool.false_ne_true
        · intro r hr
          exact Except.noConfusion hr
        · intro hex
          obtain ⟨x, hx, hxi⟩ := hex
          rw [(heff x hx).2.2] at hxi
          exact absurd hxi Bool.false_ne_true
      | ok out =>
        rw [show continueWith env d (tr0, Except.ok out)
            = afterResolve env d tr0 out from rfl] at hrun
        unfold afterResolve at hrun
        by_cases hI : env.installOk = true
        · rw [if_neg (not_not_intro hI)] at hrun
          simp only [] at hrun
          by_cases hB : env.buildOk = true
          · rw [if_neg (not_not_intro hB)] at hrun
            by_cases hP : env.packOk = true
            · rw [if_neg (not_not_intro hP)] at hrun
              simp only [Prod.mk.injEq] at hrun
              obtain ⟨htr, hres2⟩ := hrun
              subst htr
              subst hres2
              exact ⟨fun hI2 => absurd (hI2 ▸ hI) Bool.false_ne_true,
                fun _ hB2 => absurd (hB2 ▸ hB) Bool.false_ne_true,
                fun _ _ hP2 => absurd (hP2 ▸ hP) Bool.false_ne_true⟩
            · rw [if_pos hP] at hrun
              simp only [Prod.mk.injEq] at hrun
              obtain ⟨htr, hres2⟩ := hrun
              subst htr
              subst hres2
              refine ⟨fun hI2 => absurd (hI2 ▸ hI) Bool.false_ne_true,
                fun _ hB2 => absurd (hB2 ▸ hB) Bool.false_ne_true,
                fun _ _ _ => ⟨?_, ?_⟩⟩
              · intro r hr
                exact Except.noConfusion hr
              · intro _
                rfl
          · rw [if_pos hB] at hrun
            simp only [Prod.mk.injEq] at hrun
            obtain ⟨htr, hres2⟩ := hrun
            subst htr
            subst hres2
            refine ⟨fun hI2 => absurd (hI2 ▸ hI) Bool.false_ne_true,
              fun _ _ => ⟨?_, ?_, ?_⟩,
              fun _ hB2 _ => absurd hB2 hB⟩
            · intro x hx
              rcases List.mem_append.mp hx with hx | hx
              · exact (heff x hx).2.2
              · simp at hx
                rcases hx with rfl | rfl | rfl
                · rfl
                · rfl
                · rfl
            · intro r hr
              exact Except.noConfusion hr
            · intro _
              rfl
        · rw [if_pos hI] at hrun
          simp only [Prod.mk.injEq] at hrun
          obtain ⟨htr, hres2⟩ := hrun
          subst htr
          subst hres2
          refine ⟨fun _ => ⟨?_, ?_, ?_⟩,
            fun hI2 _ => absurd hI2 hI, fun hI2 _ _ => absurd hI2 hI⟩
          · intro x hx
            rcases List.mem_append.mp hx with hx | hx
            · exact ⟨(heff x hx).2.1, (heff x hx).2.2⟩
            · simp at hx
              subst hx
              exact ⟨rfl, rfl⟩
          · intro r hr
            exact Except.noConfusion hr
          · intro _
            rfl
    · rw [if_pos h2] at hrun
      simp only [Prod.mk.injEq] at hrun
      obtain ⟨htr, hres2⟩ := hrun
      subst htr
      subst hres2
      refine ⟨fun _ => ⟨?_, ?_, ?_⟩, fun _ _ => ⟨?_, ?_, ?_⟩,
        fun _ _ _ => ⟨?_, ?_⟩⟩ <;> simp
  · rw [if_pos h1] at hrun
    simp only [Prod.mk.injEq] at hrun
    obtain ⟨htr, hres2⟩ := hrun
    subst htr
    subst hres2
    refine ⟨fun _ => ⟨?_, ?_, ?_⟩, fun _ _ => ⟨?_, ?_, ?_⟩,
      fun _ _ _ => ⟨?_, ?_⟩⟩ <;> simp

theorem stage_failure_aborts_witness :
    (envInstallFail.installOk = false →
      (∀ e ∈ trInstallFail, e.isBuild = false ∧ e.isPack = false) ∧
      (∀ r : RunResult, (Except.error BundleError.installFailed :
        Except BundleError RunResult) ≠ Except.ok r) ∧
      ((∃ e ∈ trInstallFail, e.isInstall = true) →
        (Except.error BundleError.installFailed :
          Except BundleError RunResult) = Except.error BundleError.installFailed)) ∧
    (envInstallFail.installOk = true → envInstallFail.buildOk = false →
      (∀ e ∈ trInstallFail, e.isPack = false) ∧
      (∀ r : RunResult, (Except.error BundleError.installFailed :
        Except BundleError RunResult) ≠ Except.ok r) ∧
      ((∃ e ∈ trInstallFail, e.isBuild = true) →
        (Except.error BundleError.installFailed :
          Except BundleError RunResult) = Except.error BundleError.buildFailed)) ∧
    (envInstallFail.installOk = true → envInstallFail.buildOk = true →
      envInstallFail.packOk = false →
      (∀ r : RunResult, (Except.error BundleError.installFailed :
        Except BundleError RunResult) ≠ Except.ok r) ∧
      ((∃ e ∈ trInstallFail, e.isPack = true) →
        (Except.error BundleError.installFailed :
          Except BundleError RunResult) = Except.error BundleError.packFailed)) :=
  stage_failure_aborts envInstallFail [("plugin")] [("out")] trInstallFail
    (Except.error BundleError.installFailed) rfl

/-- Claim C8: in every successful run, the bundle output is the manifest's
declared bundleMain when present and dist/index.js otherwise, resolved
against the resolved input directory, and the trace ensures the bundle
output's parent directory right before the compiler is invoked (and after
installation, before packing). -/
theorem bundle_output_and_parent_ensured (env : Env) (d o : List String)
    (tr : List Effect) (r : RunResult)
    (hrun : run env d o = (tr, Except.ok r)) :
    r.bundleMain = (env.manifest.bundleMain).getD ("dist/index.js") ∧
    r.bundleOut = pathResolve2 env.cwd (pathResolve env.cwd d)
      (segsOfString r.bundleMain) ∧
    tr = (resolveOutput env o).1 ++ [Effect.installed (pathResolve env.cwd d),
      Effect.ensuredDir (dirnameSegs r.bundleOut),
      Effect.built (pathResolve env.cwd d) r.entry r.bundleOut,
      Effect.packed (pathResolve env.cwd d) r.outputFile] := by
  obtain ⟨hde, hdd, tr0, out, hres, haft⟩ := run_ok env d o tr r hrun
  obtain ⟨_, _, _, _, _, hbm, hbo, htr⟩ := afterResolve_ok env d tr0 out tr r haft
  refine ⟨hbm, hbo, ?_⟩
  rw [htr, hres]

theorem bundle_output_and_parent_ensured_witness :
    run envDirOut [("plugin")] [("out")] = (trDirOut, Except.ok rDirOut) ∧
    (rDirOut.bundleMain = (envDirOut.manifest.bundleMain).getD ("dist/index.js") ∧
     rDirOut.bundleOut = pathResolve2 envDirOut.cwd
       (pathResolve envDirOut.cwd [("plugin")]) (segsOfString rDirOut.bundleMain) ∧
     trDirOut = (resolveOutput envDirOut [("out")]).1
       ++ [Effect.installed (pathResolve envDirOut.cwd [("plugin")]),
           Effect.ensuredDir (dirnameSegs rDirOut.bundleOut),
           Effect.built (pathResolve envDirOut.cwd [("plugin")]) rDirOut.entry
             rDirOut.bundleOut,
           Effect.packed (pathResolve envDirOut.cwd [("plugin")])
             rDirOut.outputFile]) :=
  ⟨rfl, bundle_output_and_parent_ensured envDirOut [("plugin")] [("out")]
    trDirOut rDirOut rfl⟩

/-- Claim C9: in every run where the output parent directory is missing
and the operator confirms its creation, the run's outcome is entirely
independent of whether the unawaited mkdirp call succeeds, and the trace
proceeds directly from the prompt and the mkdirp call to the dependency
installation with no check in between. -/
theorem mkdirp_result_discarded (env : Env) (d o dir : List String) (b : Bool)
    (hde : env.fs.pathExists d = true) (hdd : env.fs.isDirectory d = true)
    (h1 : env.fs.pathExists o = false)
    (hd : dir = if endsWithSep o then o else dirnameSegs o)
    (h2 : env.fs.pathExists dir = false)
    (h3 : env.promptConfirm = true) :
    run { env with mkdirpSucceeds := b } d o = run env d o ∧
    (run env d o).1.take 3 = [Effect.prompted dir, Effect.mkdirCalled dir,
      Effect.installed (pathResolve env.cwd d)] := by
  constructor
  · cases env
    rfl
  · have hok := resolveOutput_confirmed env o dir h1 hd h2 h3
    rw [run_resolved env d o _ _ hde hdd hok]
    unfold afterResolve
    by_cases hI : env.installOk = true
    · rw [if_neg (not_not_intro hI)]
      simp only []
      by_cases hB : env.buildOk = true
      · rw [if_neg (not_not_intro hB)]
        by_cases hP : env.packOk = true
        · rw [if_neg (not_not_intro hP)]
          rfl
        · rw [if_pos hP]
          rfl
      · rw [if_pos hB]
        rfl
    · rw [if_pos hI]
      rfl

theorem mkdirp_result_discarded_witness :
    run { envNewDir with mkdirpSucceeds := false } [("plugin")] [("newdir"), ("")]
      = run envNewDir [("plugin")] [("newdir"), ("")] ∧
    (run envNewDir [("plugin")] [("newdir"), ("")]).1.take 3
      = [Effect.prompted [("newdir"), ("")], Effect.mkdirCalled [("newdir"), ("")],
         Effect.installed (pathResolve envNewDir.cwd [("plugin")])] :=
  mkdirp_result_discarded envNewDir [("plugin")] [("newdir"), ("")]
    [("newdir"), ("")] false rfl rfl rfl (by decide) rfl rfl

/-- Claim C10: when the manifest has no name field or an empty name, the
derived output file name is -<version>.tgz with an empty name prefix, not
a failure. -/
theorem derived_name_with_missing_name (m : Manifest)
    (h : m.name = none ∨ m.name = some ("")) :
    deriveOutputFileName m = "-" ++ m.version ++ ".tgz" := by
  rcases h with h | h <;>
    simp [deriveOutputFileName, jsOrEmpty, h]

theorem derived_name_with_missing_name_witness :
    (mNoName.name = none ∨ mNoName.name = some ("")) ∧
    deriveOutputFileName mNoName = "-" ++ mNoName.version ++ ".tgz" :=
  ⟨Or.inl rfl, derived_name_with_missing_name mNoName (Or.inl rfl)⟩
